import Mathlib

/-!
Shallow embedding of the advanced-portfolio-backtester core pipeline.

Matrices (price, signal, weight) are lists of rows: one row per time point,
one rational entry per asset, in a fixed positional asset order.  Python
floats are modelled by exact rationals `ℚ`; the float operations `sqrt` and
non-integer `**` are modelled by the corresponding real functions, and float
NaN (which pandas produces for the sample deviation of fewer than two points)
is modelled by `none` in an `Option`-valued result.

Sources embedded:
  src/backtester/portfolio_backtester.py  (fetch_data, _generate_sample_data,
    run, _calculate_weights, _calculate_returns, _calculate_portfolio_values)
  src/analytics/performance_analyzer.py   (calculate_metrics and helpers)
  src/utils/results.py                    (BacktestResults.to_dict)
-/

namespace Backtester

/-- Row `t` of a matrix stored as a list of rows; out of range gives the empty
row.  This models pandas label alignment for the case treated in the claims:
an absent label pairs with nothing and drops out of the (NaN-skipping) sums. -/
def row (m : List (List ℚ)) (t : ℕ) : List ℚ := m.getD t []

/-- Number of strictly positive entries of a signal row: the value
`active_positions.sum()` in `_calculate_weights`, where
`active_positions = signals.loc[date] > 0`. -/
def active_count (r : List ℚ) : ℕ := (r.filter (fun s => decide (0 < s))).length

/-- One row of `_calculate_weights`: if some position is active, each active
asset gets `1.0 / active_positions.sum()` (the bool mask times the weight),
otherwise the whole row is `0.0`. -/
def weight_row (r : List ℚ) : List ℚ :=
  if 0 < active_count r then
    r.map (fun s => if 0 < s then 1 / (active_count r : ℚ) else 0)
  else
    r.map (fun _ => 0)

/-- `PortfolioBacktester._calculate_weights`: row-by-row equal weighting over
the active signals. -/
def calculate_weights (signals : List (List ℚ)) : List (List ℚ) := signals.map weight_row

/-- Row `t` (for `t ≥ 1`) of `self.data.pct_change()`: the per-asset simple
returns `price[t][a] / price[t-1][a] - 1`. -/
def pct_change_row (prices : List (List ℚ)) (t : ℕ) : List ℚ :=
  List.zipWith (fun prev cur => cur / prev - 1) (row prices (t - 1)) (row prices t)

/-- Portfolio return at time `t` in `_calculate_returns`:
`(weights.shift(1) * asset_returns).sum(axis=1)` evaluated at row `t`.
At `t = 0` both the shifted weights and `pct_change` are all NaN, so the
NaN-skipping row sum is `0` (and `.ffill().fillna(0)` leaves it `0`). -/
def portfolio_return_at (prices weights : List (List ℚ)) (t : ℕ) : ℚ :=
  if t = 0 then 0
  else (List.zipWith (fun w r => w * r) (row weights (t - 1)) (pct_change_row prices t)).sum

/-- `PortfolioBacktester._calculate_returns`, tabulated over the price index. -/
def calculate_returns (prices weights : List (List ℚ)) : List ℚ :=
  (List.range prices.length).map (portfolio_return_at prices weights)

/-- Running product, as in `(1 + returns).cumprod()`. -/
def cumprod : List ℚ → List ℚ
  | [] => []
  | x :: xs => x :: (cumprod xs).map (fun c => x * c)

/-- `PortfolioBacktester._calculate_portfolio_values`:
`initial_capital * (1 + returns).cumprod()`. -/
def calculate_portfolio_values (initial_capital : ℚ) (returns : List ℚ) : List ℚ :=
  (cumprod (returns.map (fun r => 1 + r))).map (fun c => initial_capital * c)

/-- Arithmetic mean, pandas `.mean()` (only ever used on non-empty series by
the embedded code paths). -/
def mean (xs : List ℚ) : ℚ := xs.sum / (xs.length : ℚ)

/-- Sample variance with `ddof = 1`, the pandas `.var()` convention underlying
`.std()`.  `none` models the NaN that pandas returns for fewer than two
points. -/
def sample_var (xs : List ℚ) : Option ℚ :=
  if 2 ≤ xs.length then
    some ((xs.map (fun x => (x - mean xs) ^ 2)).sum / ((xs.length : ℚ) - 1))
  else none

/-- Pandas `.std()`: the square root of the sample variance, NaN (`none`) when
fewer than two points are supplied. -/
noncomputable def sample_std (xs : List ℚ) : Option ℝ :=
  (sample_var xs).map (fun v => Real.sqrt (v : ℝ))

/-- `portfolio_values.pct_change().fillna(0)` in `calculate_metrics`: the lone
NaN at position 0 becomes `0`. -/
def pct_change_series (values : List ℚ) : List ℚ :=
  (List.range values.length).map (fun t =>
    if t = 0 then 0 else values.getD t 0 / values.getD (t - 1) 0 - 1)

/-- Pandas `Series.min()` over a non-empty series (the `0` returned on the
empty list stands for a NaN that the embedded call sites never produce). -/
def list_min : List ℚ → ℚ
  | [] => 0
  | x :: xs => xs.foldl min x

/-- Maximum of a non-empty list, used to state the specified
`max(values[0..t])` form of the running maximum. -/
def list_max : List ℚ → ℚ
  | [] => 0
  | x :: xs => xs.foldl max x

/-- `portfolio_values.expanding().max()` in `_calculate_max_drawdown`. -/
def running_max : List ℚ → List ℚ
  | [] => []
  | x :: xs => x :: (running_max xs).map (fun y => max x y)

/-- `PerformanceAnalyzer._calculate_max_drawdown`:
`abs(((values - running_max) / running_max).min())`. -/
def calculate_max_drawdown (values : List ℚ) : ℚ :=
  |list_min (List.zipWith (fun v m => (v - m) / m) values (running_max values))|

section
open Classical

/-- `PerformanceAnalyzer._calculate_sharpe_ratio`.  A NaN standard deviation
(one data point) fails the `== 0` test and propagates NaN into the quotient,
hence the `none => none` arm. -/
noncomputable def calculate_sharpe_ratio (excess_returns : List ℚ) : Option ℝ :=
  match sample_std excess_returns with
  | none => none
  | some s =>
      if s = 0 then some 0
      else some (((mean excess_returns : ℝ) * 252) / (s * Real.sqrt 252))

/-- `PerformanceAnalyzer._calculate_sortino_ratio`.  The code filters the
strictly negative returns, returns `0.0` when there are none, computes
`downside_deviation = downside_returns.std() * np.sqrt(252)`, returns `0.0`
when that deviation equals `0`, and otherwise divides the annualized excess
return by it.  A NaN deviation (exactly one downside return) fails the `== 0`
test and propagates NaN, hence the `none => none` arm. -/
noncomputable def calculate_sortino_ratio (risk_free_rate : ℚ) (returns : List ℚ) : Option ℝ :=
  if (returns.filter (fun r => decide (r < 0))).length = 0 then some 0
  else
    match sample_var (returns.filter (fun r => decide (r < 0))) with
    | none => none
    | some v =>
        if Real.sqrt (v : ℝ) * Real.sqrt 252 = 0 then some 0
        else
          some ((((mean returns : ℝ) * 252) - (risk_free_rate : ℝ)) /
            (Real.sqrt (v : ℝ) * Real.sqrt 252))

end

/-- `PerformanceAnalyzer._calculate_calmar_ratio`. -/
noncomputable def calculate_calmar_ratio (annualized_return : ℝ) (max_drawdown : ℚ) : ℝ :=
  if max_drawdown = 0 then 0 else annualized_return / (max_drawdown : ℝ)

/-- `np.percentile(xs, q)` with the default linear interpolation between order
statistics of the ascending sort. -/
def percentile (xs : List ℚ) (q : ℚ) : ℚ :=
  let sorted := xs.mergeSort (fun a b => decide (a ≤ b))
  let pos : ℚ := q / 100 * ((xs.length : ℚ) - 1)
  let i : ℕ := (⌊pos⌋).toNat
  let lo := sorted.getD i 0
  let hi := sorted.getD (i + 1) lo
  lo + (pos - (i : ℚ)) * (hi - lo)

/-- The float expression `(1 + total_return) ** (1 / years) - 1` with
`years = days / 252`, modelled by real exponentiation. -/
noncomputable def annualized_return_fn (total_return : ℚ) (days : ℕ) : ℝ :=
  (1 + (total_return : ℝ)) ^ ((1 : ℝ) / ((days : ℝ) / 252)) - 1

/-- The fully populated metrics bundle constructed by
`PerformanceAnalyzer.calculate_metrics`.  Fields that a short series drives to
NaN are `Option`-valued with `none` standing for NaN. -/
structure BacktestResults where
  final_value : ℚ
  total_return : ℚ
  annualized_return : ℝ
  sharpe_ratio : Option ℝ
  sortino_ratio : Option ℝ
  max_drawdown : ℚ
  volatility : Option ℝ
  calmar_ratio : ℝ
  var_95 : ℚ
  weights : List ℚ

/-- `PerformanceAnalyzer.calculate_metrics`.  The code reads
`portfolio_values.iloc[-1]` (and later `weights.iloc[-1]`); on an empty series
either access raises `IndexError` and no results object is produced, modelled
by the `Except.error` arm.  Otherwise every metric is computed and a results
record is returned unconditionally: the method performs no length or shape
validation. -/
noncomputable def calculate_metrics (risk_free_rate : ℚ) (portfolio_values : List ℚ)
    (weights : List (List ℚ)) (initial_capital : ℚ) : Except String BacktestResults :=
  match portfolio_values.getLast?, weights.getLast? with
  | some final_value, some final_weights =>
      let total_return := (final_value - initial_capital) / initial_capital
      let returns := pct_change_series portfolio_values
      let ann := annualized_return_fn total_return portfolio_values.length
      let mdd := calculate_max_drawdown portfolio_values
      Except.ok
        { final_value := final_value
          total_return := total_return
          annualized_return := ann
          sharpe_ratio :=
            calculate_sharpe_ratio (returns.map (fun r => r - risk_free_rate / 252))
          sortino_ratio := calculate_sortino_ratio risk_free_rate returns
          max_drawdown := mdd
          volatility := (sample_std returns).map (fun s => s * Real.sqrt 252)
          calmar_ratio := calculate_calmar_ratio ann mdd
          var_95 := |percentile returns 5|
          weights := final_weights }
  | _, _ => Except.error "IndexError: single positional indexer is out-of-bounds"

/-- `PortfolioBacktester.run` after data fetch and signal generation: weights,
returns, values, then metrics with the default `PerformanceAnalyzer`
risk-free rate of `0.02`.  No alignment check of the signal matrix against the
price matrix is performed anywhere on this path. -/
noncomputable def run (prices signals : List (List ℚ)) (initial_capital : ℚ) :
    Except String BacktestResults :=
  let weights := calculate_weights signals
  let returns := calculate_returns prices weights
  let values := calculate_portfolio_values initial_capital returns
  calculate_metrics (1 / 50) values weights initial_capital

/-- Forward fill of one price column (`data.ffill()` acts per column along the
date index): a missing cell takes the most recent earlier value, a leading gap
stays missing. -/
def ffill_column : Option ℚ → List (Option ℚ) → List (Option ℚ)
  | _, [] => []
  | prev, none :: rest => prev :: ffill_column prev rest
  | _, some x :: rest => some x :: ffill_column (some x) rest

/-- `data.ffill()` over a column-major price matrix (one list of dated cells
per symbol, `none` a missing cell). -/
def ffill_matrix (cols : List (List (Option ℚ))) : List (List (Option ℚ)) :=
  cols.map (ffill_column none)

/-- `PortfolioBacktester.fetch_data`.  The body wraps the whole external
download in `try/except Exception`: on success the downloaded matrix is
forward filled and returned; on any failure the method returns
`self._generate_sample_data()` instead of re-raising.  The download outcome
and the generated sample matrix (whose values come from a seeded NumPy random
walk over the requested dates, external to the core arithmetic modelled here)
are passed in as parameters; only the control flow of the method itself is at
issue. -/
def fetch_data (download : Except String (List (List (Option ℚ))))
    (sample : List (List ℚ)) : Except String (List (List (Option ℚ))) :=
  match download with
  | Except.ok data => Except.ok (ffill_matrix data)
  | Except.error _ => Except.ok (sample.map (fun col => col.map some))

/-- Attribute store of `BacktestResults` in `src/utils/results.py`: the
constructor sets exactly the attributes passed as keyword arguments, so any of
the ten fields read back by `to_dict` may be absent (`none`). -/
structure ResultsObject where
  final_value : Option ℚ
  total_return : Option ℚ
  annualized_return : Option ℚ
  sharpe_ratio : Option ℚ
  max_drawdown : Option ℚ
  volatility : Option ℚ
  sortino_ratio : Option ℚ
  calmar_ratio : Option ℚ
  var_95 : Option ℚ
  weights : Option (List (String × ℚ))

/-- Values of the flat dictionary built by `to_dict`: numeric fields plus the
nested symbol-to-weight mapping. -/
inductive DictValue where
  | num (x : ℚ)
  | obj (entries : List (String × ℚ))
deriving DecidableEq

/-- `BacktestResults.to_dict`.  The dictionary literal reads
`self.final_value`, `self.total_return`, `self.annualized_return`,
`self.sharpe_ratio`, `self.max_drawdown`, `self.volatility` and `self.weights`
directly (an absent attribute raises `AttributeError`, modelled by the error
arm), while `sortino_ratio`, `calmar_ratio` and `var_95` are read through
`getattr(self, _, 0.0)` and default to `0.0` when never set. -/
def to_dict (r : ResultsObject) : Except String (List (String × DictValue)) :=
  match r.final_value, r.total_return, r.annualized_return, r.sharpe_ratio,
      r.max_drawdown, r.volatility, r.weights with
  | some fv, some tr, some ar, some sh, some md, some vol, some w =>
      Except.ok
        [("final_value", DictValue.num fv),
         ("total_return", DictValue.num tr),
         ("annualized_return", DictValue.num ar),
         ("sharpe_ratio", DictValue.num sh),
         ("max_drawdown", DictValue.num md),
         ("volatility", DictValue.num vol),
         ("sortino_ratio", DictValue.num (r.sortino_ratio.getD 0)),
         ("calmar_ratio", DictValue.num (r.calmar_ratio.getD 0)),
         ("var_95", DictValue.num (r.var_95.getD 0)),
         ("weights", DictValue.obj w)]
  | _, _, _, _, _, _, _ => Except.error "AttributeError"

/-! Helper lemmas about the list plumbing of the embedding. -/

lemma getD_map_in {α β : Type} (f : α → β) (l : List α) {i : ℕ} (h : i < l.length)
    (d : β) (d' : α) : (l.map f).getD i d = f (l.getD i d') := by
  rw [List.getD_eq_getElem _ _ (by simpa using h), List.getD_eq_getElem _ _ h,
    List.getElem_map]

lemma getD_range_map (f : ℕ → ℚ) {n t : ℕ} (h : t < n) :
    ((List.range n).map f).getD t 0 = f t := by
  rw [getD_map_in f _ (by simpa using h) 0 0]
  congr 1
  rw [List.getD_eq_getElem _ _ (by simpa using h), List.getElem_range]

lemma getD_zipWith_in (f : ℚ → ℚ → ℚ) (xs ys : List ℚ) {i : ℕ}
    (hx : i < xs.length) (hy : i < ys.length) :
    (List.zipWith f xs ys).getD i 0 = f (xs.getD i 0) (ys.getD i 0) := by
  have hl : i < (List.zipWith f xs ys).length := by
    rw [List.length_zipWith]; exact lt_min hx hy
  rw [List.getD_eq_getElem _ _ hl, List.getD_eq_getElem _ _ hx,
    List.getD_eq_getElem _ _ hy, List.getElem_zipWith]

lemma sum_zipWith_eq_finsum (f : ℚ → ℚ → ℚ) :
    ∀ (n : ℕ) (xs ys : List ℚ), xs.length = n → ys.length = n →
      (List.zipWith f xs ys).sum = ∑ i ∈ Finset.range n, f (xs.getD i 0) (ys.getD i 0) := by
  intro n
  induction n with
  | zero =>
      intro xs ys hx hy
      rw [List.length_eq_zero.mp hx, List.length_eq_zero.mp hy]
      simp
  | succ m ih =>
      intro xs ys hx hy
      match xs, ys with
      | x :: xs', y :: ys' =>
          simp only [List.zipWith_cons_cons, List.sum_cons]
          rw [ih xs' ys' (by simpa using hx) (by simpa using hy),
            Finset.sum_range_succ' (fun i => f ((x :: xs').getD i 0) ((y :: ys').getD i 0)) m]
          simp only [List.getD_cons_succ, List.getD_cons_zero]
          ring

lemma cumprod_length (xs : List ℚ) : (cumprod xs).length = xs.length := by
  induction xs with
  | nil => rfl
  | cons x xs ih => simp [cumprod, ih]

lemma cumprod_getD (xs : List ℚ) :
    ∀ t, t < xs.length → (cumprod xs).getD t 0 = ∏ k ∈ Finset.range (t + 1), xs.getD k 0 := by
  induction xs with
  | nil => intro t ht; simp at ht
  | cons x xs ih =>
      intro t ht
      cases t with
      | zero => simp [cumprod]
      | succ m =>
          have hm : m < xs.length := by simpa using ht
          have hm' : m < (cumprod xs).length := by rw [cumprod_length]; exact hm
          show ((cumprod (x :: xs)).getD (m + 1) 0) = _
          rw [show cumprod (x :: xs) = x :: (cumprod xs).map (fun c => x * c) from rfl,
            List.getD_cons_succ, getD_map_in _ _ hm' 0 0, ih m hm,
            Finset.prod_range_succ' (fun k => (x :: xs).getD k 0) (m + 1)]
          simp only [List.getD_cons_succ, List.getD_cons_zero]
          ring

lemma active_count_cons (a : ℚ) (r : List ℚ) :
    active_count (a :: r) = (if 0 < a then 1 else 0) + active_count r := by
  by_cases h : 0 < a
  · simp [active_count, List.filter_cons, h]; omega
  · simp [active_count, List.filter_cons, h]

lemma sum_map_pos_indicator (r : List ℚ) (c : ℚ) :
    (r.map (fun s => if 0 < s then c else 0)).sum = (active_count r : ℚ) * c := by
  induction r with
  | nil => simp [active_count]
  | cons a r ih =>
      rw [List.map_cons, List.sum_cons, ih, active_count_cons]
      by_cases h : 0 < a
      · rw [if_pos h, if_pos h]; push_cast; ring
      · rw [if_neg h, if_neg h]; push_cast; ring

lemma running_max_length (xs : List ℚ) : (running_max xs).length = xs.length := by
  induction xs with
  | nil => rfl
  | cons x xs ih => simp [running_max, ih]

lemma foldl_max_comm (l : List ℚ) : ∀ x y : ℚ, l.foldl max (max x y) = max x (l.foldl max y) := by
  induction l with
  | nil => intro x y; rfl
  | cons z l ih =>
      intro x y
      show l.foldl max (max (max x y) z) = max x (l.foldl max (max y z))
      rw [max_assoc, ih]

lemma list_max_cons (x : ℚ) (l : List ℚ) (hl : l ≠ []) :
    list_max (x :: l) = max x (list_max l) := by
  match l with
  | z :: l' => exact foldl_max_comm l' x z

lemma running_max_getD (xs : List ℚ) :
    ∀ t, t < xs.length → (running_max xs).getD t 0 = list_max (xs.take (t + 1)) := by
  induction xs with
  | nil => intro t ht; simp at ht
  | cons x xs ih =>
      intro t ht
      cases t with
      | zero => rfl
      | succ m =>
          have hm : m < xs.length := by simpa using ht
          have hm' : m < (running_max xs).length := by rw [running_max_length]; exact hm
          have hne : xs.take (m + 1) ≠ [] := by
            have hlen : (xs.take (m + 1)).length = m + 1 := by
              rw [List.length_take]; omega
            intro h; rw [h] at hlen; simp at hlen
          show ((running_max (x :: xs)).getD (m + 1) 0) = list_max ((x :: xs).take (m + 1 + 1))
          rw [show running_max (x :: xs) = x :: (running_max xs).map (fun y => max x y) from rfl,
            List.getD_cons_succ, getD_map_in _ _ hm' 0 0, ih m hm, List.take_succ_cons,
            list_max_cons x _ hne]

lemma sample_var_nonneg (xs : List ℚ) (v : ℚ) (h : sample_var xs = some v) : 0 ≤ v := by
  unfold sample_var at h
  by_cases hl : 2 ≤ xs.length
  · rw [if_pos hl, Option.some.injEq] at h
    subst h
    apply div_nonneg
    · apply List.sum_nonneg
      intro y hy
      obtain ⟨x, _, rfl⟩ := List.mem_map.mp hy
      positivity
    · have : (2 : ℚ) ≤ (xs.length : ℚ) := by exact_mod_cast hl
      linarith
  · rw [if_neg hl] at h; exact absurd h (by simp)

lemma calculate_portfolio_values_length (cap : ℚ) (rs : List ℚ) :
    (calculate_portfolio_values cap rs).length = rs.length := by
  unfold calculate_portfolio_values
  rw [List.length_map, cumprod_length, List.length_map]

lemma calculate_returns_length (p w : List (List ℚ)) :
    (calculate_returns p w).length = p.length := by
  unfold calculate_returns
  rw [List.length_map, List.length_range]

lemma active_count_eq_zero_no_pos (r : List ℚ) (h : active_count r = 0) :
    ∀ x ∈ r, ¬ 0 < x := by
  intro x hx hpos
  have : r.filter (fun s => decide (0 < s)) = [] := List.length_eq_zero.mp h
  have := List.filter_eq_nil_iff.mp this x hx
  simp [hpos] at this

lemma weight_row_mem_bounds (srow : List ℚ) :
    ∀ w ∈ weight_row srow, 0 ≤ w ∧ w ≤ 1 := by
  intro w hw
  unfold weight_row at hw
  by_cases hn : 0 < active_count srow
  · rw [if_pos hn] at hw
    obtain ⟨s, _, rfl⟩ := List.mem_map.mp hw
    have h1 : (1 : ℚ) ≤ (active_count srow : ℚ) := by exact_mod_cast hn
    by_cases hs : 0 < s
    · rw [if_pos hs]
      constructor
      · positivity
      · rw [div_le_one (by linarith)]; exact h1
    · rw [if_neg hs]; constructor <;> norm_num
  · rw [if_neg hn] at hw
    obtain ⟨s, _, rfl⟩ := List.mem_map.mp hw
    constructor <;> norm_num

/-- C5: every row of the WeightMatrix produced by the default equal-weight
allocator `_calculate_weights` has weights summing to exactly 0 (no signal in
the row is positive) or to 1 within tolerance `1e-9` (in fact exactly 1: every
active asset receives `1/|A|` and all others `0`), and every individual weight
lies in `[0, 1]`. -/
theorem calculate_weights_row_invariants (signals : List (List ℚ)) :
    (∀ wrow ∈ calculate_weights signals,
        (wrow.sum = 0 ∨ |wrow.sum - 1| ≤ 1 / 1000000000) ∧
        ∀ w ∈ wrow, 0 ≤ w ∧ w ≤ 1) ∧
    (∀ srow ∈ signals, ∀ i, i < srow.length →
        (weight_row srow).getD i 0 =
          if 0 < srow.getD i 0 then 1 / (active_count srow : ℚ) else 0) := by
  constructor
  · intro wrow hwrow
    obtain ⟨srow, _, rfl⟩ := List.mem_map.mp hwrow
    refine ⟨?_, weight_row_mem_bounds srow⟩
    unfold weight_row
    by_cases hn : 0 < active_count srow
    · right
      rw [if_pos hn, sum_map_pos_indicator srow (1 / (active_count srow : ℚ)),
        mul_one_div, div_self (by exact_mod_cast hn.ne')]
      norm_num
    · left
      rw [if_neg hn]
      simp
  · intro srow _ i hi
    unfold weight_row
    by_cases hn : 0 < active_count srow
    · rw [if_pos hn, getD_map_in _ _ hi 0 0]
    · rw [if_neg hn, getD_map_in _ _ hi 0 0, if_neg]
      have hmem : srow.getD i 0 ∈ srow := by
        rw [List.getD_eq_getElem _ _ hi]; exact List.getElem_mem hi
      exact active_count_eq_zero_no_pos srow (by omega) _ hmem

/-- Witness for C5 at the concrete signal matrix `[[1, 0]]`. -/
theorem calculate_weights_row_invariants_witness :
    ((weight_row [1, 0]).sum = 0 ∨ |(weight_row [1, 0]).sum - 1| ≤ 1 / 1000000000) ∧
    (weight_row [1, 0]).getD 0 0 = if (0 : ℚ) < 1 then 1 / (active_count [1, 0] : ℚ) else 0 :=
  ⟨((calculate_weights_row_invariants [[1, 0]]).1 (weight_row [1, 0])
      (by simp [calculate_weights])).1,
   (calculate_weights_row_invariants [[1, 0]]).2 [1, 0] (by simp) 0 (by norm_num)⟩

/-- C6: `_calculate_portfolio_values` reconstructs
`value[t] = initial_capital * Π_k≤t (1 + returns[k])` for every time point,
`value[0] = initial_capital` exactly whenever the return series starts with 0
(the ReturnSeries contract), and it is a total function: a zero or negative
cumulative product raises nothing and the output always has one value per
input return. -/
theorem portfolio_values_cumprod (returns : List ℚ) (cap : ℚ) :
    (calculate_portfolio_values cap returns).length = returns.length ∧
    (∀ t, t < returns.length →
        (calculate_portfolio_values cap returns).getD t 0 =
          cap * ∏ k ∈ Finset.range (t + 1), (1 + returns.getD k 0)) ∧
    (returns.getD 0 0 = 0 → returns ≠ [] →
        (calculate_portfolio_values cap returns).getD 0 0 = cap) := by
  have hgen : ∀ t, t < returns.length →
      (calculate_portfolio_values cap returns).getD t 0 =
        cap * ∏ k ∈ Finset.range (t + 1), (1 + returns.getD k 0) := by
    intro t ht
    have ht1 : t < (returns.map (fun r => 1 + r)).length := by simpa using ht
    have ht2 : t < (cumprod (returns.map (fun r => 1 + r))).length := by
      rw [cumprod_length]; exact ht1
    unfold calculate_portfolio_values
    rw [getD_map_in _ _ ht2 0 0, cumprod_getD _ t ht1]
    congr 1
    refine Finset.prod_congr rfl ?_
    intro k hk
    have hk' : k < returns.length := by
      have := Finset.mem_range.mp hk; omega
    exact getD_map_in _ _ hk' 0 0
  refine ⟨?_, hgen, ?_⟩
  · exact calculate_portfolio_values_length cap returns
  · intro h0 hne
    have hlen : 0 < returns.length := List.length_pos.mpr hne
    rw [hgen 0 hlen, Finset.prod_range_one, h0]
    norm_num

/-- Witness for C6 at the concrete return series `[0, 1/10]` and capital 100. -/
theorem portfolio_values_cumprod_witness :
    (calculate_portfolio_values 100 [0, 1/10]).getD 1 0 =
      100 * ∏ k ∈ Finset.range 2, (1 + ([(0 : ℚ), 1/10].getD k 0)) ∧
    (calculate_portfolio_values 100 [0, 1/10]).getD 0 0 = 100 :=
  ⟨(portfolio_values_cumprod [0, 1/10] 100).2.1 1 (by norm_num),
   (portfolio_values_cumprod [0, 1/10] 100).2.2 (by norm_num) (by simp)⟩

lemma row_length_of_mem (m : List (List ℚ)) (A t : ℕ)
    (hA : ∀ r ∈ m, r.length = A) (ht : t < m.length) : (row m t).length = A := by
  rw [row, List.getD_eq_getElem _ _ ht]
  exact hA _ (List.getElem_mem ht)

/-- C4: `_calculate_returns` applies the one-period weight lag: at every time
`t ≥ 1` the portfolio return is the sum over assets of the weight decided at
`t - 1` times the simple return `price[t][a] / price[t-1][a] - 1`, and the
return at time 0 is exactly 0 (the all-NaN first row of the shifted weights
and of `pct_change` sums to 0 under the NaN-skipping row sum). -/
theorem calculate_returns_weight_lag (prices weights : List (List ℚ)) (A : ℕ)
    (hp : ∀ r ∈ prices, r.length = A) (hw : ∀ r ∈ weights, r.length = A)
    (hne : prices ≠ []) :
    (calculate_returns prices weights).getD 0 0 = 0 ∧
    ∀ t, 1 ≤ t → t < prices.length → t - 1 < weights.length →
      (calculate_returns prices weights).getD t 0 =
        ∑ a ∈ Finset.range A,
          (weights.getD (t - 1) []).getD a 0 *
            ((prices.getD t []).getD a 0 / (prices.getD (t - 1) []).getD a 0 - 1) := by
  constructor
  · have hlen : 0 < prices.length := List.length_pos.mpr hne
    rw [calculate_returns, getD_range_map _ hlen]
    rfl
  · intro t ht1 ht2 htw
    have hwlen : (row weights (t - 1)).length = A := row_length_of_mem _ _ _ hw htw
    have hplen1 : (row prices (t - 1)).length = A :=
      row_length_of_mem _ _ _ hp (by omega)
    have hplen2 : (row prices t).length = A := row_length_of_mem _ _ _ hp ht2
    have hpct : (pct_change_row prices t).length = A := by
      rw [pct_change_row, List.length_zipWith, hplen1, hplen2, min_self]
    rw [calculate_returns, getD_range_map _ ht2, portfolio_return_at, if_neg (by omega),
      sum_zipWith_eq_finsum (fun w r => w * r) A _ _ hwlen hpct]
    refine Finset.sum_congr rfl ?_
    intro a ha
    have haA : a < A := Finset.mem_range.mp ha
    rw [pct_change_row, getD_zipWith_in _ _ _ (by omega) (by omega)]
    rfl

/-- Witness for C4 at a concrete two-day, one-asset matrix pair. -/
theorem calculate_returns_weight_lag_witness :
    (calculate_returns [[100], [110]] [[1], [1]]).getD 0 0 = 0 ∧
    (calculate_returns [[100], [110]] [[1], [1]]).getD 1 0 =
      ∑ a ∈ Finset.range 1,
        (([[(1 : ℚ)], [1]]).getD 0 []).getD a 0 *
          ((([[(100 : ℚ)], [110]]).getD 1 []).getD a 0 /
            (([[(100 : ℚ)], [110]]).getD 0 []).getD a 0 - 1) :=
  ⟨(calculate_returns_weight_lag [[100], [110]] [[1], [1]] 1
      (by decide) (by decide) (by simp)).1,
   (calculate_returns_weight_lag [[100], [110]] [[1], [1]] 1
      (by decide) (by decide) (by simp)).2 1 (by norm_num) (by norm_num) (by norm_num)⟩

lemma weights_row_eq (signals : List (List ℚ)) (s : ℕ) :
    row (calculate_weights signals) s = weight_row (row signals s) := by
  by_cases h : s < signals.length
  · rw [row, calculate_weights, getD_map_in weight_row signals h [] [], row]
  · have h1 : signals.length ≤ s := by omega
    have h2 : (calculate_weights signals).length ≤ s := by
      rw [calculate_weights, List.length_map]; exact h1
    rw [row, row, List.getD_eq_default _ _ h2, List.getD_eq_default _ _ h1]
    rfl

/-- C7: zero-lookahead as a two-run property of `_calculate_weights` and
`_calculate_returns`.  For two price matrices of the same span that agree on
every time point up to and including `t`, and signal matrices (derived from
them by any strategy that maps equal price prefixes to equal signal prefixes)
that also agree up to `t`, the computed weight rows and portfolio returns
agree at every time point `s ≤ t`. -/
theorem zero_lookahead (p₁ p₂ g₁ g₂ : List (List ℚ)) (t : ℕ)
    (hplen : p₁.length = p₂.length)
    (hp : ∀ s ≤ t, row p₁ s = row p₂ s)
    (hg : ∀ s ≤ t, row g₁ s = row g₂ s) :
    ∀ s ≤ t,
      row (calculate_weights g₁) s = row (calculate_weights g₂) s ∧
      (calculate_returns p₁ (calculate_weights g₁)).getD s 0 =
        (calculate_returns p₂ (calculate_weights g₂)).getD s 0 := by
  intro s hs
  have hwrow : ∀ u ≤ t, row (calculate_weights g₁) u = row (calculate_weights g₂) u := by
    intro u hu
    rw [weights_row_eq, weights_row_eq, hg u hu]
  refine ⟨hwrow s hs, ?_⟩
  have hra : portfolio_return_at p₁ (calculate_weights g₁) s =
      portfolio_return_at p₂ (calculate_weights g₂) s := by
    unfold portfolio_return_at
    by_cases h0 : s = 0
    · rw [if_pos h0, if_pos h0]
    · rw [if_neg h0, if_neg h0, pct_change_row, pct_change_row,
        hp (s - 1) (by omega), hp s hs, hwrow (s - 1) (by omega)]
  by_cases hs' : s < p₁.length
  · rw [calculate_returns, getD_range_map _ hs', calculate_returns,
      getD_range_map _ (hplen ▸ hs'), hra]
  · have h1 : (calculate_returns p₁ (calculate_weights g₁)).length ≤ s := by
      rw [calculate_returns, List.length_map, List.length_range]; omega
    have h2 : (calculate_returns p₂ (calculate_weights g₂)).length ≤ s := by
      rw [calculate_returns, List.length_map, List.length_range]; omega
    rw [List.getD_eq_default _ _ h1, List.getD_eq_default _ _ h2]

/-- Witness for C7: perturbing the last price of a three-day series does not
change the return at time 1. -/
theorem zero_lookahead_witness :
    (calculate_returns [[100], [110], [120]] (calculate_weights [[1], [1], [1]])).getD 1 0 =
      (calculate_returns [[100], [110], [999]] (calculate_weights [[1], [1], [1]])).getD 1 0 :=
  (zero_lookahead [[100], [110], [120]] [[100], [110], [999]] [[1], [1], [1]] [[1], [1], [1]] 1
    (by simp)
    (by intro s hs; interval_cases s <;> rfl)
    (by intro s hs; exact rfl) 1 (le_refl 1)).2

/-- C9: `_calculate_max_drawdown` computes
`abs(min over t of (values[t] - max(values[0..t])) / max(values[0..t]))`,
a non-negative quantity, and a 50% fall from the peak followed by a full
recovery yields exactly `1/2`. -/
theorem max_drawdown_spec :
    (∀ values : List ℚ, values ≠ [] →
        calculate_max_drawdown values =
          |list_min ((List.range values.length).map (fun t =>
              (values.getD t 0 - list_max (values.take (t + 1))) /
                list_max (values.take (t + 1))))| ∧
        0 ≤ calculate_max_drawdown values) ∧
    calculate_max_drawdown [100, 50, 100] = 1 / 2 := by
  constructor
  · intro values hne
    refine ⟨?_, abs_nonneg _⟩
    unfold calculate_max_drawdown
    congr 1
    congr 1
    apply List.ext_getElem
    · rw [List.length_zipWith, running_max_length, min_self, List.length_map,
        List.length_range]
    · intro i h1 h2
      have hi : i < values.length := by
        rw [List.length_zipWith, running_max_length, min_self] at h1
        exact h1
      have hirm : i < (running_max values).length := by rw [running_max_length]; exact hi
      rw [List.getElem_zipWith, List.getElem_map, List.getElem_range,
        ← List.getD_eq_getElem values 0 hi, ← List.getD_eq_getElem _ 0 hirm,
        running_max_getD values i hi]
  · have h1 : running_max [100, 50, 100] = [100, 100, 100] := by
      norm_num [running_max, max_def]
    unfold calculate_max_drawdown
    rw [h1]
    have h2 : List.zipWith (fun v m => (v - m) / m) [(100 : ℚ), 50, 100] [100, 100, 100] =
        [0, -1/2, 0] := by norm_num [List.zipWith]
    rw [h2]
    have h3 : list_min [(0 : ℚ), -1/2, 0] = -1/2 := by norm_num [list_min, min_def]
    rw [h3]
    norm_num

/-- Witness for C9 at the concrete value series `[100, 50, 100]`. -/
theorem max_drawdown_spec_witness :
    0 ≤ calculate_max_drawdown [100, 50, 100] :=
  (max_drawdown_spec.1 [100, 50, 100] (by simp)).2

/-- C8: `_calculate_sortino_ratio` returns exactly 0 when there are no
strictly negative period returns or when their (sample) deviation is 0 — in
both cases without raising — and otherwise returns the annualized excess
return `mean(returns)*252 - rf` divided by the annualized downside deviation
`stdev(downside) * sqrt(252)`. -/
theorem sortino_ratio_spec (rf : ℚ) (returns : List ℚ) :
    (returns.filter (fun r => decide (r < 0)) = [] →
        calculate_sortino_ratio rf returns = some 0) ∧
    (∀ v, sample_var (returns.filter (fun r => decide (r < 0))) = some v →
        (v = 0 → calculate_sortino_ratio rf returns = some 0) ∧
        (v ≠ 0 → calculate_sortino_ratio rf returns =
            some ((((mean returns : ℝ) * 252) - (rf : ℝ)) /
              (Real.sqrt (v : ℝ) * Real.sqrt 252)))) := by
  constructor
  · intro hemp
    unfold calculate_sortino_ratio
    rw [hemp]
    norm_num
  · intro v hv
    have hlen : 2 ≤ (returns.filter (fun r => decide (r < 0))).length := by
      by_contra hcon
      unfold sample_var at hv
      rw [if_neg hcon] at hv
      exact Option.noConfusion hv
    have hne0 : ¬ (returns.filter (fun r => decide (r < 0))).length = 0 := by omega
    constructor
    · intro h0
      subst h0
      unfold calculate_sortino_ratio
      rw [if_neg hne0, hv]
      show (if Real.sqrt ((0 : ℚ) : ℝ) * Real.sqrt 252 = 0 then some (0 : ℝ) else _) = some 0
      rw [if_pos (by simp)]
    · intro hvne
      have hv0 : 0 ≤ v := sample_var_nonneg _ _ hv
      have hvpos : 0 < v := lt_of_le_of_ne hv0 (Ne.symm hvne)
      have hsq : Real.sqrt (v : ℝ) * Real.sqrt 252 ≠ 0 := by
        have h1 : 0 < Real.sqrt (v : ℝ) := Real.sqrt_pos.mpr (by exact_mod_cast hvpos)
        have h2 : 0 < Real.sqrt 252 := Real.sqrt_pos.mpr (by norm_num)
        positivity
      unfold calculate_sortino_ratio
      rw [if_neg hne0, hv]
      show (if Real.sqrt ((v : ℚ) : ℝ) * Real.sqrt 252 = 0 then some (0 : ℝ) else _) = _
      rw [if_neg hsq]

/-- Witness for C8: a series with no negative return has Sortino ratio 0, and
a series whose downside returns are all equal (deviation 0) also has Sortino
ratio 0. -/
theorem sortino_ratio_spec_witness :
    calculate_sortino_ratio (1/50) [1/100, 2/100] = some 0 ∧
    calculate_sortino_ratio (1/50) [-1/100, -1/100, 5/100] = some 0 :=
  ⟨(sortino_ratio_spec (1/50) [1/100, 2/100]).1 (by norm_num [List.filter]),
   ((sortino_ratio_spec (1/50) [-1/100, -1/100, 5/100]).2 0
      (by norm_num [sample_var, List.filter, mean])).1 rfl⟩

lemma calculate_metrics_isOk (rf cap : ℚ) (values : List ℚ) (weights : List (List ℚ))
    (hv : values ≠ []) (hw : weights ≠ []) :
    ∃ r, calculate_metrics rf values weights cap = Except.ok r := by
  obtain ⟨lv, hlv⟩ := Option.isSome_iff_exists.mp (List.getLast?_isSome.mpr hv)
  obtain ⟨lw, hlw⟩ := Option.isSome_iff_exists.mp (List.getLast?_isSome.mpr hw)
  refine ⟨?_, ?_⟩
  rotate_left
  · unfold calculate_metrics
    rw [hlv, hlw]
    exact rfl

/-- C1 counterexample: a failing download does not surface the failure — the
result is a successful sample matrix built from the generator output. -/
theorem fetch_data_swallows_failure :
    fetch_data (Except.error "HTTPError: download failed") [[100]] =
      Except.ok [[some 100]] := rfl

/-- C1 amended: `fetch_data` never propagates a download failure.  On any
error it returns the generated sample matrix as a successful result, and on
success it returns the forward-filled download. -/
theorem fetch_data_fallback (e : String) (sample : List (List ℚ))
    (data : List (List (Option ℚ))) :
    fetch_data (Except.error e) sample =
      Except.ok (sample.map (fun col => col.map some)) ∧
    fetch_data (Except.ok data) sample = Except.ok (ffill_matrix data) :=
  ⟨rfl, rfl⟩

/-- C2 counterexample: a one-point value series — fewer than 2 time points —
produces a results record (no explicit error) whose volatility and Sharpe
ratio are NaN. -/
theorem calculate_metrics_single_point_nan :
    ∃ r, calculate_metrics (1/50) [100] [[0]] 100 = Except.ok r ∧
      r.volatility = none ∧ r.sharpe_ratio = none := by
  refine ⟨_, rfl, ?_, ?_⟩ <;> rfl

/-- C2 amended: for a single time point `calculate_metrics` signals no error
and returns a record whose volatility and Sharpe ratio are NaN (modelled as
`none`, from the NaN sample deviation of a one-element return series); only
the empty series fails, with the `IndexError` of `iloc[-1]`. -/
theorem calculate_metrics_short_series :
    (∀ (rf v cap : ℚ) (w : List (List ℚ)), w ≠ [] →
        ∃ r, calculate_metrics rf [v] w cap = Except.ok r ∧
          r.volatility = none ∧ r.sharpe_ratio = none) ∧
    (∀ (rf cap : ℚ) (w : List (List ℚ)),
        calculate_metrics rf [] w cap =
          Except.error "IndexError: single positional indexer is out-of-bounds") := by
  constructor
  · intro rf v cap w hw
    obtain ⟨l, hl⟩ := Option.isSome_iff_exists.mp (List.getLast?_isSome.mpr hw)
    refine ⟨?_, ?_, ?_, ?_⟩
    rotate_left
    · unfold calculate_metrics
      rw [hl]
      exact rfl
    · rfl
    · rfl
  · intro rf cap w
    rfl

/-- Witness for the amended C2 at a concrete one-point series. -/
theorem calculate_metrics_short_series_witness :
    ∃ r, calculate_metrics 0 [7] [[1]] 3 = Except.ok r ∧
      r.volatility = none ∧ r.sharpe_ratio = none :=
  calculate_metrics_short_series.1 0 7 3 [[1]] (by simp)

/-- C3 counterexample: a signal matrix with fewer asset columns than the price
matrix — misaligned with the PriceMatrix's columns — does not abort the run;
a results record is returned. -/
theorem run_misaligned_returns_ok :
    ∃ r, run [[100, 100], [110, 90], [121, 81]] [[1], [1], [1]] 100 =
      Except.ok r :=
  ⟨_, rfl⟩

/-- C3 amended: `run` performs no alignment validation at all.  For every
non-empty price and signal matrix, aligned or not, the pipeline completes and
returns a results record; positions present in only one of the matrices
simply drop out of the NaN-skipping row sums. -/
theorem run_no_shape_validation (prices signals : List (List ℚ)) (cap : ℚ)
    (hp : prices ≠ []) (hs : signals ≠ []) :
    ∃ r, run prices signals cap = Except.ok r := by
  have hwne : calculate_weights signals ≠ [] := by
    unfold calculate_weights
    simp [hs]
  have hvne : calculate_portfolio_values cap
      (calculate_returns prices (calculate_weights signals)) ≠ [] := by
    intro h
    have := congrArg List.length h
    rw [calculate_portfolio_values_length, calculate_returns_length] at this
    exact hp (List.length_eq_zero.mp this)
  exact calculate_metrics_isOk (1/50) cap _ _ hvne hwne

/-- Witness for the amended C3 at a concrete aligned pair. -/
theorem run_no_shape_validation_witness :
    ∃ r, run [[1]] [[2]] 1 = Except.ok r :=
  run_no_shape_validation [[1]] [[2]] 1 (by simp) (by simp)

/-- C10: a successful `to_dict` serialization carries exactly the ten keys in
the order of the dictionary literal, and the three `getattr`-guarded fields
(`sortino_ratio`, `calmar_ratio`, `var_95`) serialize as `0.0` instead of
failing when the attribute was never set; when the directly read attributes
are all set, serialization succeeds. -/
theorem to_dict_keys_and_defaults (r : ResultsObject) :
    (∀ d, to_dict r = Except.ok d →
        d.map Prod.fst = ["final_value", "total_return", "annualized_return",
          "sharpe_ratio", "max_drawdown", "volatility", "sortino_ratio",
          "calmar_ratio", "var_95", "weights"] ∧
        (r.sortino_ratio = none → d.lookup "sortino_ratio" = some (DictValue.num 0)) ∧
        (r.calmar_ratio = none → d.lookup "calmar_ratio" = some (DictValue.num 0)) ∧
        (r.var_95 = none → d.lookup "var_95" = some (DictValue.num 0))) ∧
    (r.final_value.isSome → r.total_return.isSome → r.annualized_return.isSome →
        r.sharpe_ratio.isSome → r.max_drawdown.isSome → r.volatility.isSome →
        r.weights.isSome → (to_dict r).isOk = true) := by
  obtain ⟨fv, tr, ar, sh, md, vol, so, cal, var, w⟩ := r
  constructor
  · intro d hd
    unfold to_dict at hd
    match fv, tr, ar, sh, md, vol, w with
    | some fv, some tr, some ar, some sh, some md, some vol, some w =>
        simp only [Except.ok.injEq] at hd
        subst hd
        refine ⟨by simp, ?_, ?_, ?_⟩
        · intro hso; subst hso; simp [List.lookup]
        · intro hcal; subst hcal; simp [List.lookup]
        · intro hvar; subst hvar; simp [List.lookup]
    | none, _, _, _, _, _, _ => exact Except.noConfusion hd
    | some _, none, _, _, _, _, _ => exact Except.noConfusion hd
    | some _, some _, none, _, _, _, _ => exact Except.noConfusion hd
    | some _, some _, some _, none, _, _, _ => exact Except.noConfusion hd
    | some _, some _, some _, some _, none, _, _ => exact Except.noConfusion hd
    | some _, some _, some _, some _, some _, none, _ => exact Except.noConfusion hd
    | some _, some _, some _, some _, some _, some _, none => exact Except.noConfusion hd
  · intro h1 h2 h3 h4 h5 h6 h7
    obtain ⟨fv', rfl⟩ := Option.isSome_iff_exists.mp h1
    obtain ⟨tr', rfl⟩ := Option.isSome_iff_exists.mp h2
    obtain ⟨ar', rfl⟩ := Option.isSome_iff_exists.mp h3
    obtain ⟨sh', rfl⟩ := Option.isSome_iff_exists.mp h4
    obtain ⟨md', rfl⟩ := Option.isSome_iff_exists.mp h5
    obtain ⟨vol', rfl⟩ := Option.isSome_iff_exists.mp h6
    obtain ⟨w', rfl⟩ := Option.isSome_iff_exists.mp h7
    rfl

/-- Witness for C10: a record whose three optional metrics were never set
serializes successfully, with key list intact and the optional keys at 0. -/
theorem to_dict_keys_and_defaults_witness :
    (to_dict ⟨some 1, some 2, some 3, some 4, some 5, some 6, none, none, none,
        some [("AAPL", 1)]⟩).isOk = true ∧
    ([("final_value", DictValue.num 1), ("total_return", DictValue.num 2),
      ("annualized_return", DictValue.num 3), ("sharpe_ratio", DictValue.num 4),
      ("max_drawdown", DictValue.num 5), ("volatility", DictValue.num 6),
      ("sortino_ratio", DictValue.num 0), ("calmar_ratio", DictValue.num 0),
      ("var_95", DictValue.num 0),
      ("weights", DictValue.obj [("AAPL", 1)])].lookup "sortino_ratio" =
        some (DictValue.num 0)) :=
  ⟨(to_dict_keys_and_defaults _).2 rfl rfl rfl rfl rfl rfl rfl,
   ((to_dict_keys_and_defaults ⟨some 1, some 2, some 3, some 4, some 5, some 6,
      none, none, none, some [("AAPL", 1)]⟩).1 _ rfl).2.1 rfl⟩

end Backtester
